import Mathlib

/-!
Shallow embedding of the DBDash multi-dialect database gateway
(`backend/src/dbManager.js` and `backend/src/routes/databases.js`).

JavaScript values that flow through the gateway (env strings, JSON
option objects, query parameters) are modelled by `JsVal`; JS objects
built by literals and spreads are modelled as ordered association
lists whose lookup is last-write-wins (`objGet`), matching JS object
literal evaluation order.  External collaborators (the three database
drivers, `process.env`, `JSON.parse`) are parameters of the
corresponding functions.
-/

namespace DBDash

/-- JavaScript values carried in option objects and query parameters. -/
inductive JsVal where
  | str (s : String)
  | num (n : Int)
  | bool (b : Bool)
  | null
deriving DecidableEq, Repr

/-- Lookup in a JS object literal modelled as an ordered field list:
the value written last for a key wins, as in JS object construction. -/
def objGet (o : List (String × JsVal)) (k : String) : Option JsVal :=
  match o with
  | [] => none
  | p :: rest =>
    match objGet rest k with
    | some v => some v
    | none => if p.1 = k then some p.2 else none

/-- JS string truthiness: `undefined` and the empty string are falsy. -/
def jsStr (o : Option String) : Option String :=
  match o with
  | some s => if s = "" then none else some s
  | none => none

/-- JS `x || d` for an optional string `x` and default `d`. -/
def jsOrS (o : Option String) (d : String) : String :=
  (jsStr o).getD d

/-- Digit-list value, radix 10. -/
def leadDigitsVal (d : List Char) : Int :=
  d.foldl (fun a c => a * 10 + (Int.ofNat c.toNat - 48)) 0

/-- JS `parseInt(s)` (radix 10): optional sign then the longest digit
prefix; `none` models `NaN` (no digits). -/
def jsParseInt (s : String) : Option Int :=
  match s.trim.toList with
  | '-' :: rest =>
    let d := rest.takeWhile Char.isDigit
    if d.isEmpty then none else some (-(leadDigitsVal d))
  | '+' :: rest =>
    let d := rest.takeWhile Char.isDigit
    if d.isEmpty then none else some (leadDigitsVal d)
  | cs =>
    let d := cs.takeWhile Char.isDigit
    if d.isEmpty then none else some (leadDigitsVal d)

/-- JS coercion of an optional string into a parameter value
(`undefined` becomes a null-like value). -/
def jsOfOptStr : Option String → JsVal
  | some s => .str s
  | none => .null

/-- JS coercion of an optional number into an object field value. -/
def jsOfOptInt : Option Int → JsVal
  | some n => .num n
  | none => .null

/-- Does `needle` occur as a contiguous segment of `hay`?  Used to
state facts about generated SQL statement text. -/
def containsSeg (needle hay : List Char) : Bool :=
  match hay with
  | [] => needle.isEmpty
  | _ :: rest => needle.isPrefixOf hay || containsSeg needle rest

/-- One parsed database descriptor (`parseEnvConfigs` element). -/
structure DBConfig where
  id : String
  name : String
  type : String
  host : Option String
  port : Option Int
  user : Option String
  password : Option String
  database : Option String
  options : List (String × JsVal)
deriving DecidableEq, Repr

/-- Column metadata row as returned by the schema introspection query. -/
structure ColumnMeta where
  name : String
  dataType : String
  nullable : String
  defaultValue : Option String
deriving DecidableEq, Repr

/-- Registry entry status; the code only ever stores the strings
`connected` and `error` into `status`. -/
inductive Status where
  | connected
  | error
deriving DecidableEq, Repr

/-- The mssql lazy connection config object built by `createConnection`. -/
structure MssqlCfg where
  server : Option String
  port : Option Int
  user : Option String
  password : Option String
  database : Option String
  options : List (String × JsVal)
deriving DecidableEq, Repr

/-- Dialect-specific connection handle produced by the factory:
postgres and mysql get pools built from an option object (the `ended`
flag mirrors the pg pool field checked by the executor); mssql gets a
config-only value, no network connection at factory time. -/
inductive Handle where
  | pgPool (cfg : List (String × JsVal)) (ended : Bool)
  | myPool (cfg : List (String × JsVal))
  | mssqlConfig (cfg : MssqlCfg)
deriving DecidableEq, Repr

/-- One registry entry: the JS code spreads the config fields together
with `connection`, `status` and `error` into a single object. -/
structure DBEntry where
  config : DBConfig
  connection : Option Handle
  status : Status
  error : Option String
deriving DecidableEq, Repr

/-- The registry: a JS `Map` keyed by database id, in insertion order. -/
abbrev Registry := List (String × DBEntry)

/-- JS `Map.get`. -/
def regGet (m : Registry) (k : String) : Option DBEntry :=
  match m with
  | [] => none
  | p :: rest => if p.1 = k then some p.2 else regGet rest k

/-- Does the map already hold the key? -/
def regHasKey (m : Registry) (k : String) : Bool :=
  match m with
  | [] => false
  | p :: rest => p.1 = k || regHasKey rest k

/-- JS `Map.set`: replace in place when the key exists, else append. -/
def jsMapSet (m : Registry) (k : String) (v : DBEntry) : Registry :=
  if regHasKey m k then
    m.map (fun p => if p.1 = k then (k, v) else p)
  else
    m ++ [(k, v)]

/-- Environment variable name of one field of an indexed group
(`DB_<index>_<field>`). -/
def envKey (index : Nat) (field : String) : String :=
  "DB_" ++ toString index ++ "_" ++ field

/-- Build the descriptor for one present index (`parseEnvConfigs` loop
body).  `env` models `process.env`; `jparse` models `JSON.parse`
restricted to objects, with `none` for a parse failure, in which case
the options stay empty. -/
def mkConfig (env : String → Option String)
    (jparse : String → Option (List (String × JsVal)))
    (index : Nat) (type : String) : DBConfig :=
  { id := jsOrS (env (envKey index "ID")) ("db_" ++ toString index)
    name := jsOrS (env (envKey index "NAME")) ("Database " ++ toString index)
    type := type.toLower
    host := env (envKey index "HOST")
    port := jsParseInt (jsOrS (env (envKey index "PORT")) "0")
    user := env (envKey index "USER")
    password := env (envKey index "PASSWORD")
    database := env (envKey index "DATABASE")
    options :=
      match jsStr (env (envKey index "OPTIONS")) with
      | some s => (jparse s).getD []
      | none => [] }

/-- The `while (true)` scan of `parseEnvConfigs`, starting at `index`
and stopping at the first index whose `TYPE` variable is absent (or
empty, which is falsy).  `fuel` bounds the scan; every run of the real
loop that terminates is reproduced for a large enough fuel. -/
def parseFrom (env : String → Option String)
    (jparse : String → Option (List (String × JsVal))) :
    Nat → Nat → List DBConfig
  | _, 0 => []
  | index, fuel + 1 =>
    match jsStr (env (envKey index "TYPE")) with
    | none => []
    | some t => mkConfig env jparse index t :: parseFrom env jparse (index + 1) fuel

/-- `parseEnvConfigs`: scan indexed groups starting at index 1. -/
def parseEnvConfigs (env : String → Option String)
    (jparse : String → Option (List (String × JsVal)))
    (fuel : Nat) : List DBConfig :=
  parseFrom env jparse 1 fuel

/-- Is the type string one of the six recognized dialect names? -/
def recognizedType (t : String) : Bool :=
  t = "postgres" || t = "postgresql" || t = "mysql" || t = "mariadb" ||
    t = "mssql" || t = "sqlserver"

/-- The mssql options object literal: defaults written first, then the
descriptor options spread last (so the spread overrides the defaults).
The `encrypt` default is `options.encrypt !== false`. -/
def mssqlOptions (opts : List (String × JsVal)) : List (String × JsVal) :=
  [("encrypt", .bool (objGet opts "encrypt" != some (.bool false))),
   ("trustServerCertificate", .bool true)] ++ opts

/-- The mssql lazy config object built in the factory's mssql case. -/
def mssqlHandleCfg (c : DBConfig) : MssqlCfg :=
  { server := c.host
    port := c.port
    user := c.user
    password := c.password
    database := c.database
    options := mssqlOptions c.options }

/-- The base pool fields shared by the pg and mysql pool configs. -/
def basePoolFields (c : DBConfig) : List (String × JsVal) :=
  [("host", jsOfOptStr c.host), ("port", jsOfOptInt c.port),
   ("user", jsOfOptStr c.user), ("password", jsOfOptStr c.password),
   ("database", jsOfOptStr c.database)]

/-- `createConnection(config)`: dispatch on the type string; the
default branch throws `Unsupported database type`. -/
def createConnection (c : DBConfig) : Except String Handle :=
  if c.type = "postgres" ∨ c.type = "postgresql" then
    .ok (.pgPool (basePoolFields c ++ c.options) false)
  else if c.type = "mysql" ∨ c.type = "mariadb" then
    .ok (.myPool (basePoolFields c ++
      [("waitForConnections", .bool true), ("connectionLimit", .num 10)] ++
      c.options))
  else if c.type = "mssql" ∨ c.type = "sqlserver" then
    .ok (.mssqlConfig (mssqlHandleCfg c))
  else
    .error ("Unsupported database type: " ++ c.type)

/-- The entry stored for one config by the `initializeConnections`
loop body: `connected` with the handle on success, `error` with a null
handle and the message on failure. -/
def mkEntry (create : DBConfig → Except String Handle) (c : DBConfig) : DBEntry :=
  match create c with
  | .ok h => { config := c, connection := some h, status := .connected, error := none }
  | .error e => { config := c, connection := none, status := .error, error := some e }

/-- The `dbConfigs.forEach` loop of `initializeConnections`: each
descriptor is attempted independently (the try/catch isolates
failures) and stored with `Map.set`.  `create` abstracts
`createConnection` together with any driver-level construction
failure. -/
def initFromConfigs (m : Registry) (configs : List DBConfig)
    (create : DBConfig → Except String Handle) : Registry :=
  configs.foldl (fun acc c => jsMapSet acc c.id (mkEntry create c)) m

/-- `reloadConnections`: close every old connection (pure I/O, no
effect on the stored value), clear the map, re-read the environment
and re-run initialization from the cleared map. -/
def reloadConnections (env : String → Option String)
    (jparse : String → Option (List (String × JsVal)))
    (create : DBConfig → Except String Handle)
    (fuel : Nat) (_old : Registry) : Registry :=
  initFromConfigs [] (parseEnvConfigs env jparse fuel) create

/-- The `list()` projection element returned by `getAllConnections`. -/
structure Projection where
  id : String
  name : String
  type : String
  status : Status
  error : Option String
deriving DecidableEq, Repr

/-- `getAllConnections()`: map the registry values, in insertion
order, to the public projection (`db.error || null`). -/
def getAllConnections (m : Registry) : List Projection :=
  m.map (fun p =>
    { id := p.2.config.id
      name := p.2.config.name
      type := p.2.config.type
      status := p.2.status
      error := jsStr p.2.error })

/-- Errors raised by the gateway.  The JS code throws `Error` objects
whose messages distinguish the cases; the constructors keep the
structure and `DBError.message` renders the exact source strings
(`queryFailed` carries the original driver message, prefixed on
rendering). -/
inductive DBError where
  | notFound (id : String)
  | notConnected (id : String) (msg : String)
  | queryFailed (msg : String)
deriving DecidableEq, Repr

/-- The message string of each thrown error, as built in the source. -/
def DBError.message : DBError → String
  | .notFound id => "Database " ++ id ++ " not found"
  | .notConnected id msg => "Database " ++ id ++ " is not connected: " ++ msg
  | .queryFailed msg => "Query failed: " ++ msg

/-- JS `db.error || 'Unknown error'`: an absent or empty stored
message falls back to the literal. -/
def jsOrUnknown (o : Option String) : String :=
  jsOrS o "Unknown error"

/-- `getConnection(dbId)`: absent id throws not-found; a status other
than `connected` throws not-connected with the stored message. -/
def getConnection (m : Registry) (dbId : String) : Except DBError DBEntry :=
  match regGet m dbId with
  | none => .error (.notFound dbId)
  | some db =>
    if db.status ≠ Status.connected then
      .error (.notConnected dbId (jsOrUnknown db.error))
    else
      .ok db

/-- Which `switch (type)` arm of the executor a type string selects. -/
inductive DialectCase where
  | pg
  | my
  | ms
  | unsupported
deriving DecidableEq, Repr

/-- Dispatch of the executor's `switch (type)`. -/
def dialectCase (t : String) : DialectCase :=
  if t = "postgres" ∨ t = "postgresql" then .pg
  else if t = "mysql" ∨ t = "mariadb" then .my
  else if t = "mssql" ∨ t = "sqlserver" then .ms
  else .unsupported

/-- A result row: a mapping from column names to values. -/
abbrev Row := List (String × JsVal)

/-- Normalized query result `{rows, rowCount}`. -/
structure QueryResult where
  rows : List Row
  rowCount : Int
deriving DecidableEq, Repr

/-- What the pg driver reports for one statement: the rows and the
optional driver row count. -/
structure PgDriverRes where
  rows : List Row
  rowCount : Option Int
deriving DecidableEq, Repr

/-- What the mssql driver reports: the recordset and the
`rowsAffected` array. -/
structure MsDriverRes where
  recordset : List Row
  rowsAffected : List Int
deriving DecidableEq, Repr

/-- The external database drivers, one behavior function per call
kind.  Each returns `.error` where the driver would throw.  The mssql
driver is split into the per-call `connect` and the statement run, as
in the source (`sql.connect` then `request().query`); note its query
function takes no parameter list: the mssql path never binds the
positional parameters. -/
structure Driver where
  pgQuery : List (String × JsVal) → String → List JsVal → Except String PgDriverRes
  myExec : List (String × JsVal) → String → List JsVal → Except String (List Row)
  msConnect : MssqlCfg → Except String Unit
  msQuery : MssqlCfg → String → Except String MsDriverRes

/-- Observable resource events of the mssql connection-per-query
pattern: a completed open, the statement issue, a completed close. -/
inductive QEvent where
  | msConnect (cfg : MssqlCfg)
  | msIssue (stmt : String)
  | msClose
deriving DecidableEq, Repr

/-- JS `pgResult.rowCount || pgResult.rows.length` (0 and undefined
are both falsy). -/
def pgCount (rowCount : Option Int) (len : Int) : Int :=
  match rowCount with
  | some n => if n = 0 then len else n
  | none => len

/-- The `try { switch (type) ... } catch` body of `query` on an
already-fetched entry: dialect dispatch, driver call, result
normalization; every failure inside the try is re-thrown as
`Query failed: <original message>`.  Alongside the result it returns
the mssql resource events of the call (empty for pooled dialects).
The arms that find no usable handle model the `!connection` guard; a
handle of the wrong shape cannot arise from the factory. -/
def queryOnEntry (db : DBEntry) (stmt : String) (params : List JsVal)
    (drv : Driver) : List QEvent × Except DBError QueryResult :=
  match dialectCase db.config.type with
  | .pg =>
    match db.connection with
    | some (.pgPool cfg ended) =>
      if ended then ([], .error (.queryFailed "Database connection closed"))
      else
        match drv.pgQuery cfg stmt params with
        | .ok r =>
          ([], .ok { rows := r.rows, rowCount := pgCount r.rowCount r.rows.length })
        | .error e => ([], .error (.queryFailed e))
    | _ => ([], .error (.queryFailed "Database connection closed"))
  | .my =>
    match db.connection with
    | some (.myPool cfg) =>
      match drv.myExec cfg stmt params with
      | .ok rows => ([], .ok { rows := rows, rowCount := rows.length })
      | .error e => ([], .error (.queryFailed e))
    | _ => ([], .error (.queryFailed "Cannot read properties of null"))
  | .ms =>
    match db.connection with
    | some (.mssqlConfig cfg) =>
      match drv.msConnect cfg with
      | .error e => ([], .error (.queryFailed e))
      | .ok _ =>
        match drv.msQuery cfg stmt with
        | .ok r =>
          ([.msConnect cfg, .msIssue stmt, .msClose],
           .ok { rows := r.recordset, rowCount := r.rowsAffected.head?.getD 0 })
        | .error e =>
          ([.msConnect cfg, .msIssue stmt], .error (.queryFailed e))
    | _ => ([], .error (.queryFailed "Cannot read properties of null"))
  | .unsupported =>
    ([], .error (.queryFailed ("Unsupported database type: " ++ db.config.type)))

/-- `query(dbId, sqlQuery, params)`: fetch the entry (its errors
propagate unwrapped, the lookup happens before the try block), then
run the dialect-dispatched body. -/
def query (m : Registry) (dbId stmt : String) (params : List JsVal)
    (drv : Driver) : List QEvent × Except DBError QueryResult :=
  match getConnection m dbId with
  | .error e => ([], .error e)
  | .ok db => queryOnEntry db stmt params drv

/-- Tag for the per-dialect column-catalog query text of
`getTableSchema` (the texts differ only in placeholder style and the
schema default folded into `COALESCE`; the binding is in the
parameter list). -/
inductive CatalogQuery where
  | pgColumns
  | myColumns
  | msColumns
deriving DecidableEq, Repr

/-- `getTableSchema(dbId, tableName, schema = null)`: pick the
dialect's column-catalog query and bind its parameters — the schema
argument defaulted to `public` (postgres) or `dbo` (mssql) via
`schema || default`, while mysql binds the entry's connected database
name and ignores the schema argument. -/
def getTableSchema (m : Registry) (dbId tableName : String)
    (schema : Option String) : Except DBError (CatalogQuery × List JsVal) :=
  match getConnection m dbId with
  | .error e => .error e
  | .ok db =>
    match dialectCase db.config.type with
    | .pg => .ok (.pgColumns, [.str (jsOrS schema "public"), .str tableName])
    | .my => .ok (.myColumns, [jsOfOptStr db.config.database, .str tableName])
    | .ms => .ok (.msColumns, [.str (jsOrS schema "dbo"), .str tableName])
    | .unsupported =>
      .error (.queryFailed ("Unsupported database type: " ++ db.config.type))

/-- The data route's statement builder
(`GET /:dbId/tables/:tableName/data`): qualify the table for
postgres/mssql when a schema is given, then pick the dialect-specific
pagination statement; `limit` and `offset` are the already-parsed
query integers and are always passed as the positional parameter
list, even where the final statement interpolates them instead. -/
def dataRouteQuery (dbType tableName : String) (schema : Option String)
    (limit offset : Int) : String × List JsVal :=
  let tableRef :=
    match jsStr schema with
    | some s =>
      if dbType = "postgres" ∨ dbType = "postgresql" ∨
          dbType = "mssql" ∨ dbType = "sqlserver" then
        s ++ "." ++ tableName
      else tableName
    | none => tableName
  let finalQuery :=
    if dbType = "mssql" ∨ dbType = "sqlserver" then
      "SELECT TOP " ++ toString limit ++ " * FROM " ++ tableRef ++
        " OFFSET " ++ toString offset ++ " ROWS"
    else if dbType = "mysql" ∨ dbType = "mariadb" then
      "SELECT * FROM " ++ tableRef ++ " LIMIT ? OFFSET ?"
    else if dbType = "postgres" ∨ dbType = "postgresql" then
      "SELECT * FROM " ++ tableRef ++ " LIMIT $1 OFFSET $2"
    else
      "SELECT * FROM " ++ tableRef ++ " LIMIT ? OFFSET ?"
  (finalQuery, [.num limit, .num offset])

/-- The update route's statement builder
(`PUT /:dbId/tables/:tableName/row`), after the primary-key presence
guard: the SET clause keeps only payload keys found among the
introspected columns (placeholder index over the filtered list), but
the bound values are taken from the whole payload, and the WHERE
placeholder index is `values.length + 1`. -/
def updateRowRoute (dbType tableName primaryKey : String)
    (primaryValue : JsVal) (data : List (String × JsVal))
    (columns : List ColumnMeta) : String × List JsVal :=
  let isPg := dbType = "postgres" ∨ dbType = "postgresql"
  let keys := data.map (fun p => p.1)
  let filtered := keys.filter (fun k => (columns.find? (fun col => col.name = k)).isSome)
  let setClause := String.intercalate ", "
    (filtered.enum.map (fun p =>
      p.2 ++ " = " ++ (if isPg then "$" ++ toString (p.1 + 1) else "?")))
  let values := data.map (fun p => p.2)
  let whereClause :=
    primaryKey ++ " = " ++
      (if isPg then "$" ++ toString (values.length + 1) else "?")
  ("UPDATE " ++ tableName ++ " SET " ++ setClause ++ " WHERE " ++ whereClause,
   values ++ [primaryValue])

/-! Concrete fixtures used by the closed evaluation theorems. -/

/-- A postgres descriptor. -/
def pgCfgW : DBConfig :=
  { id := "db1", name := "Main", type := "postgres", host := some "localhost"
    port := some 5432, user := some "u", password := some "p"
    database := some "app", options := [] }

/-- A descriptor with an unrecognized type string. -/
def oracleCfgW : DBConfig :=
  { id := "db2", name := "Legacy", type := "oracle", host := some "h"
    port := some 0, user := none, password := none
    database := none, options := [] }

/-- A mysql descriptor. -/
def myCfgW : DBConfig :=
  { id := "db3", name := "Shop", type := "mysql", host := some "h"
    port := some 3306, user := some "u", password := some "p"
    database := some "appdb", options := [] }

/-- An mssql descriptor with no extra options. -/
def msConfigW : DBConfig :=
  { id := "db4", name := "Erp", type := "mssql", host := some "h"
    port := some 1433, user := some "sa", password := some "p"
    database := some "erp", options := [] }

/-- An mssql descriptor whose options set `trustServerCertificate`
to false. -/
def tscFalseCfg : DBConfig :=
  { msConfigW with options := [("trustServerCertificate", .bool false)] }

/-- The lazy config the factory builds for `msConfigW`. -/
def msCfgW : MssqlCfg := mssqlHandleCfg msConfigW

/-- The registry entry built for `msConfigW`. -/
def msEntryW : DBEntry := mkEntry createConnection msConfigW

/-- A singleton registry holding the mssql entry. -/
def regW : Registry := [("db4", msEntryW)]

/-- A registry with one failed and one connected entry. -/
def errEntryW : DBEntry :=
  { config := oracleCfgW, connection := none, status := .error, error := some "boom" }

/-- The connected postgres entry. -/
def pgEntryW : DBEntry := mkEntry createConnection pgCfgW

/-- The connected mysql entry. -/
def myEntryW : DBEntry := mkEntry createConnection myCfgW

/-- Registry with a failed entry and a connected entry. -/
def regTriW : Registry := [("a", errEntryW), ("c", pgEntryW)]

/-- Registry holding one entry of each dialect. -/
def regSchemaW : Registry := [("p", pgEntryW), ("m", myEntryW), ("s", msEntryW)]

/-- Driver whose mssql statement run fails. -/
def drvFailW : Driver :=
  { pgQuery := fun _ _ _ => .error "unused"
    myExec := fun _ _ _ => .error "unused"
    msConnect := fun _ => .ok ()
    msQuery := fun _ _ => .error "boom" }

/-- Environment fixture: groups at indices 1, 2 and 4, a gap at 3,
and malformed OPTIONS at index 1. -/
def envW : String → Option String := fun k =>
  if k = "DB_1_TYPE" then some "postgres"
  else if k = "DB_1_OPTIONS" then some "not json"
  else if k = "DB_2_TYPE" then some "MySQL"
  else if k = "DB_4_TYPE" then some "mssql"
  else none

/-- A `JSON.parse` model that fails on every input. -/
def jpW : String → Option (List (String × JsVal)) := fun _ => none

/-- The TYPE values of the present indices of `envW`. -/
def tfunW : Nat → String := fun i => if i = 1 then "postgres" else "MySQL"

/-! Registry lemmas: JS `Map.set` versus lookup. -/

theorem regGet_append_none (a b : Registry) (id : String)
    (h : regGet a id = none) : regGet (a ++ b) id = regGet b id := by
  induction a with
  | nil => rfl
  | cons p rest ih =>
    by_cases hp : p.1 = id
    · simp [regGet, hp] at h
    · simp only [regGet, hp, if_neg hp, List.cons_append] at h ⊢
      exact ih h

theorem regGet_append_some (a b : Registry) (id : String) (v : DBEntry)
    (h : regGet a id = some v) : regGet (a ++ b) id = some v := by
  induction a with
  | nil => simp [regGet] at h
  | cons p rest ih =>
    by_cases hp : p.1 = id
    · simp only [regGet, if_pos hp, List.cons_append] at h ⊢
      exact h
    · simp only [regGet, if_neg hp, List.cons_append] at h ⊢
      exact ih h

theorem regGet_replace_ne (m : Registry) (k : String) (v : DBEntry)
    (id : String) (h : id ≠ k) :
    regGet (m.map fun p => if p.1 = k then (k, v) else p) id = regGet m id := by
  induction m with
  | nil => rfl
  | cons p rest ih =>
    by_cases hp : p.1 = k
    · have hk : k ≠ id := fun he => h he.symm
      simp only [List.map_cons, if_pos hp, regGet, if_neg hk]
      rw [ih]
      have : ¬(p.1 = id) := by rw [hp]; exact hk
      simp [regGet, this]
    · simp only [List.map_cons, if_neg hp, regGet]
      by_cases hid : p.1 = id
      · simp [hid]
      · simp [hid, ih]

theorem regGet_replace_eq (m : Registry) (k : String) (v : DBEntry)
    (h : regHasKey m k = true) :
    regGet (m.map fun p => if p.1 = k then (k, v) else p) k = some v := by
  induction m with
  | nil => simp [regHasKey] at h
  | cons p rest ih =>
    by_cases hp : p.1 = k
    · simp [List.map_cons, if_pos hp, regGet]
    · simp only [regHasKey, Bool.or_eq_true, decide_eq_true_eq] at h
      rcases h with h | h
      · exact absurd h hp
      · simp only [List.map_cons, if_neg hp, regGet, if_neg hp]
        exact ih h

theorem regGet_of_hasKey_false (m : Registry) (k : String)
    (h : regHasKey m k = false) : regGet m k = none := by
  induction m with
  | nil => rfl
  | cons p rest ih =>
    simp only [regHasKey, Bool.or_eq_false_iff, decide_eq_false_iff_not] at h
    simp only [regGet, if_neg h.1]
    exact ih h.2

theorem regGet_jsMapSet (m : Registry) (k : String) (v : DBEntry) (id : String) :
    regGet (jsMapSet m k v) id = if id = k then some v else regGet m id := by
  unfold jsMapSet
  by_cases hk : regHasKey m k
  · simp only [hk, if_pos]
    by_cases hid : id = k
    · subst hid
      simp [regGet_replace_eq m id v hk]
    · simp [hid, regGet_replace_ne m k v id hid]
  · simp only [hk, Bool.false_eq_true, if_neg, not_false_eq_true]
    by_cases hid : id = k
    · subst hid
      rw [regGet_append_none _ _ _ (regGet_of_hasKey_false m id (by simpa using hk))]
      simp [regGet]
    · cases hg : regGet m id with
      | some w => rw [regGet_append_some _ _ _ _ hg]; simp [hid]
      | none =>
        rw [regGet_append_none _ _ _ hg]
        have : ¬(k = id) := fun he => hid he.symm
        simp [regGet, this, hid]

theorem regHasKey_append_single (m : Registry) (k : String) (v : DBEntry)
    (id : String) :
    regHasKey (m ++ [(k, v)]) id = (regHasKey m id || decide (k = id)) := by
  induction m with
  | nil => simp [regHasKey]
  | cons p rest ih =>
    simp only [List.cons_append, regHasKey, List.append_eq]
    rw [ih, Bool.or_assoc]

theorem regHasKey_replace (m : Registry) (k : String) (v : DBEntry) (id : String) :
    regHasKey (m.map fun p => if p.1 = k then (k, v) else p) id = regHasKey m id := by
  induction m with
  | nil => rfl
  | cons p rest ih =>
    simp only [List.map_cons]
    by_cases hp : p.1 = k
    · rw [if_pos hp]
      simp only [regHasKey, ih, hp]
    · rw [if_neg hp]
      simp only [regHasKey, ih]

theorem regHasKey_jsMapSet (m : Registry) (k : String) (v : DBEntry) (id : String) :
    regHasKey (jsMapSet m k v) id = (regHasKey m id || decide (k = id)) := by
  unfold jsMapSet
  by_cases hk : regHasKey m k
  · simp only [hk, if_pos, regHasKey_replace]
    by_cases hid : k = id
    · subst hid; simp [hk]
    · simp [hid]
  · simp only [hk, Bool.false_eq_true, if_neg, not_false_eq_true]
    exact regHasKey_append_single m k v id

/-! Lemmas about the initialization fold. -/

theorem initFromConfigs_nil (m : Registry)
    (create : DBConfig → Except String Handle) :
    initFromConfigs m [] create = m := rfl

theorem initFromConfigs_cons (m : Registry) (c : DBConfig) (cs : List DBConfig)
    (create : DBConfig → Except String Handle) :
    initFromConfigs m (c :: cs) create =
      initFromConfigs (jsMapSet m c.id (mkEntry create c)) cs create := rfl

theorem initFromConfigs_getOther (create : DBConfig → Except String Handle) :
    ∀ (cs : List DBConfig) (m : Registry) (id : String),
      (∀ c ∈ cs, c.id ≠ id) →
      regGet (initFromConfigs m cs create) id = regGet m id := by
  intro cs
  induction cs with
  | nil => intro m id _; rfl
  | cons c rest ih =>
    intro m id h
    rw [initFromConfigs_cons, ih _ id (fun c' hc' => h c' (List.mem_cons_of_mem _ hc')),
      regGet_jsMapSet]
    have : ¬(id = c.id) := fun he => h c (List.mem_cons_self c rest) he.symm
    simp [this]

theorem initFromConfigs_getMem (create : DBConfig → Except String Handle) :
    ∀ (cs : List DBConfig) (m : Registry),
      (cs.map (fun c => c.id)).Nodup →
      ∀ c ∈ cs, regGet (initFromConfigs m cs create) c.id = some (mkEntry create c) := by
  intro cs
  induction cs with
  | nil => intro m _ c hc; simp at hc
  | cons c0 rest ih =>
    intro m hnd c hc
    rw [List.map_cons, List.nodup_cons] at hnd
    rcases List.mem_cons.mp hc with rfl | hmem
    · rw [initFromConfigs_cons,
        initFromConfigs_getOther create rest _ c.id
          (fun c' hc' hne => hnd.1 (hne ▸ List.mem_map_of_mem (fun x => x.id) hc')),
        regGet_jsMapSet]
      simp
    · exact ih _ hnd.2 c hmem

theorem initFromConfigs_length (create : DBConfig → Except String Handle) :
    ∀ (cs : List DBConfig) (m : Registry),
      (∀ c ∈ cs, regHasKey m c.id = false) →
      (cs.map (fun c => c.id)).Nodup →
      (initFromConfigs m cs create).length = m.length + cs.length := by
  intro cs
  induction cs with
  | nil => intro m _ _; rfl
  | cons c0 rest ih =>
    intro m hfresh hnd
    rw [List.map_cons, List.nodup_cons] at hnd
    rw [initFromConfigs_cons]
    have hk0 : regHasKey m c0.id = false := hfresh c0 (List.mem_cons_self c0 rest)
    have hlen : (jsMapSet m c0.id (mkEntry create c0)).length = m.length + 1 := by
      unfold jsMapSet
      simp [hk0]
    have hrest : ∀ c ∈ rest, regHasKey (jsMapSet m c0.id (mkEntry create c0)) c.id = false := by
      intro c hc
      rw [regHasKey_jsMapSet]
      have h1 : regHasKey m c.id = false := hfresh c (List.mem_cons_of_mem _ hc)
      have h2 : ¬(c0.id = c.id) :=
        fun he => hnd.1 (he ▸ List.mem_map_of_mem (fun x => x.id) hc)
      simp [h1, h2]
    rw [ih _ hrest hnd.2, hlen]
    simp only [List.length_cons]
    omega

theorem initFromConfigs_entry_src (create : DBConfig → Except String Handle) :
    ∀ (cs : List DBConfig) (m : Registry) (id : String) (e : DBEntry),
      regGet (initFromConfigs m cs create) id = some e →
      (∃ c, e = mkEntry create c) ∨ regGet m id = some e := by
  intro cs
  induction cs with
  | nil => intro m id e h; exact Or.inr h
  | cons c0 rest ih =>
    intro m id e h
    rw [initFromConfigs_cons] at h
    rcases ih _ id e h with hsrc | hold
    · exact Or.inl hsrc
    · rw [regGet_jsMapSet] at hold
      by_cases hid : id = c0.id
      · rw [if_pos hid] at hold
        exact Or.inl ⟨c0, (Option.some_injective _ hold).symm⟩
      · rw [if_neg hid] at hold
        exact Or.inr hold

/-! Factory and lookup helper lemmas. -/

theorem createConnection_ok_recognized (c : DBConfig) (h : Handle)
    (hok : createConnection c = .ok h) : recognizedType c.type = true := by
  unfold createConnection at hok
  split_ifs at hok with h1 h2 h3
  · rcases h1 with h | h <;> simp [recognizedType, h]
  · rcases h2 with h | h <;> simp [recognizedType, h]
  · rcases h3 with h | h <;> simp [recognizedType, h]

theorem recognized_dialectCase (t : String) (h : recognizedType t = true) :
    dialectCase t ≠ DialectCase.unsupported := by
  simp only [recognizedType, Bool.or_eq_true, decide_eq_true_eq] at h
  rcases h with ((((h | h) | h) | h) | h) | h <;> subst h <;> decide

theorem getConnection_ok (m : Registry) (id : String) (e : DBEntry)
    (h : getConnection m id = .ok e) :
    regGet m id = some e ∧ e.status = .connected := by
  unfold getConnection at h
  cases hg : regGet m id with
  | none => rw [hg] at h; cases h
  | some db =>
    rw [hg] at h
    by_cases hs : db.status = Status.connected
    · simp only [hs, ne_eq, not_true_eq_false, if_neg, not_false_eq_true] at h
      injection h with hde
      subst hde
      exact ⟨rfl, hs⟩
    · simp [hs] at h

theorem initConnected_recognized (configs : List DBConfig) (id : String)
    (e : DBEntry)
    (h : regGet (initFromConfigs [] configs createConnection) id = some e)
    (hs : e.status = .connected) :
    recognizedType e.config.type = true ∧
      dialectCase e.config.type ≠ DialectCase.unsupported := by
  rcases initFromConfigs_entry_src createConnection configs [] id e h with ⟨c, rfl⟩ | hr
  · cases hok : createConnection c with
    | error msg => simp [mkEntry, hok] at hs
    | ok hdl =>
      have hrec : recognizedType c.type = true :=
        createConnection_ok_recognized c hdl hok
      have hcfg : (mkEntry createConnection c).config = c := by
        simp [mkEntry, hok]
      rw [hcfg]
      exact ⟨hrec, recognized_dialectCase c.type hrec⟩
  · simp [regGet] at hr

/-! Lemmas on the mssql options object literal. -/

theorem objGet_mssqlOptions_encrypt (o : List (String × JsVal)) :
    objGet (mssqlOptions o) "encrypt" =
      some ((objGet o "encrypt").getD (.bool true)) := by
  cases h : objGet o "encrypt" with
  | none => simp [mssqlOptions, objGet, h]
  | some v => simp [mssqlOptions, objGet, h]

theorem objGet_mssqlOptions_tsc (o : List (String × JsVal)) :
    objGet (mssqlOptions o) "trustServerCertificate" =
      some ((objGet o "trustServerCertificate").getD (.bool true)) := by
  cases h : objGet o "trustServerCertificate" with
  | none => simp [mssqlOptions, objGet, h]
  | some v => simp [mssqlOptions, objGet, h]

/-! Claim theorems. -/

/-- C5: for every valid descriptor list (ids pairwise distinct, the
registry-generation invariant of the data model), initialization from
an empty registry produces exactly one entry per descriptor — the
entry count equals the descriptor count — for an arbitrary
per-descriptor creation outcome `create`; every descriptor's entry is
present and equal to the entry its own creation outcome dictates, so
one descriptor's failure never disturbs the others, and a failed
descriptor is stored with status error and a null handle carrying the
failure message. -/
theorem initFromConfigs_registry_shape (configs : List DBConfig)
    (create : DBConfig → Except String Handle)
    (hnd : (configs.map (fun c => c.id)).Nodup) :
    (initFromConfigs [] configs create).length = configs.length ∧
    (∀ c ∈ configs,
      regGet (initFromConfigs [] configs create) c.id = some (mkEntry create c)) ∧
    (∀ c ∈ configs, ∀ msg, create c = .error msg →
      regGet (initFromConfigs [] configs create) c.id =
        some { config := c, connection := none, status := Status.error,
               error := some msg }) := by
  refine ⟨?_, ?_, ?_⟩
  · have h := initFromConfigs_length create configs [] (fun c _ => rfl) hnd
    simpa using h
  · exact fun c hc => initFromConfigs_getMem create configs [] hnd c hc
  · intro c hc msg hmsg
    rw [initFromConfigs_getMem create configs [] hnd c hc]
    simp [mkEntry, hmsg]

/-- Witness for C5 at a two-descriptor list whose second descriptor
has an unrecognized type and therefore fails to connect. -/
theorem initFromConfigs_registry_shape_witness :
    (initFromConfigs [] [pgCfgW, oracleCfgW] createConnection).length = 2 ∧
    regGet (initFromConfigs [] [pgCfgW, oracleCfgW] createConnection) "db1" =
      some (mkEntry createConnection pgCfgW) ∧
    regGet (initFromConfigs [] [pgCfgW, oracleCfgW] createConnection) "db2" =
      some { config := oracleCfgW, connection := none, status := Status.error,
             error := some "Unsupported database type: oracle" } := by
  have h := initFromConfigs_registry_shape [pgCfgW, oracleCfgW]
    createConnection (by decide)
  exact ⟨h.1, h.2.1 pgCfgW (by decide),
    h.2.2 oracleCfgW (by decide) "Unsupported database type: oracle" rfl⟩

/-- C6: reload is idempotent with respect to the list() projection —
reloading twice with the same external configuration (environment,
JSON parser, connection factory) yields the same ordered projection
of id, name, dialect and status as reloading once, because reload
rebuilds the registry from the environment alone. -/
theorem reload_idempotent_projection (env : String → Option String)
    (jparse : String → Option (List (String × JsVal)))
    (create : DBConfig → Except String Handle) (fuel : Nat) (r : Registry) :
    getAllConnections
        (reloadConnections env jparse create fuel
          (reloadConnections env jparse create fuel r)) =
      getAllConnections (reloadConnections env jparse create fuel r) := rfl

/-- C7: lookup trichotomy of `getConnection` — an absent id fails
with not-found; an entry with status error and a stored (non-empty)
errorMessage fails with not-connected carrying exactly that message;
a connected entry is returned as-is.  (For an empty or absent stored
message the code substitutes the literal `Unknown error`, a JS
falsiness fallback.) -/
theorem getConnection_trichotomy (m : Registry) (id : String) :
    (regGet m id = none → getConnection m id = .error (.notFound id)) ∧
    (∀ e msg, regGet m id = some e → e.status = .error → e.error = some msg →
      msg ≠ "" → getConnection m id = .error (.notConnected id msg)) ∧
    (∀ e, regGet m id = some e → e.status = .connected →
      getConnection m id = .ok e) := by
  refine ⟨?_, ?_, ?_⟩
  · intro h
    simp [getConnection, h]
  · intro e msg hg hs he hne
    simp [getConnection, hg, hs, jsOrUnknown, jsOrS, jsStr, he, hne]
  · intro e hg hs
    simp [getConnection, hg, hs]

/-- Witness for C7 on a registry with one failed entry (message
`boom`) and one connected entry. -/
theorem getConnection_trichotomy_witness :
    getConnection regTriW "zzz" = .error (.notFound "zzz") ∧
    getConnection regTriW "a" = .error (.notConnected "a" "boom") ∧
    getConnection regTriW "c" = .ok pgEntryW := by
  refine ⟨(getConnection_trichotomy regTriW "zzz").1 (by decide),
    (getConnection_trichotomy regTriW "a").2.1 errEntryW "boom"
      (by decide) (by decide) (by decide) (by decide),
    (getConnection_trichotomy regTriW "c").2.2 pgEntryW (by decide) (by decide)⟩

/-- C9: schema introspection scoping — with the schema argument
unspecified, the column-catalog parameters scope the query to
`public` for postgres and `dbo` for mssql; for mysql the query is
scoped to the entry's connected database name and the passed schema
argument has no effect on the result. -/
theorem getTableSchema_schema_scoping (m : Registry) (id t : String)
    (e : DBEntry) (he : regGet m id = some e) (hs : e.status = .connected) :
    (e.config.type = "postgres" ∨ e.config.type = "postgresql" →
      getTableSchema m id t none = .ok (.pgColumns, [.str "public", .str t])) ∧
    (e.config.type = "mssql" ∨ e.config.type = "sqlserver" →
      getTableSchema m id t none = .ok (.msColumns, [.str "dbo", .str t])) ∧
    (∀ s, e.config.type = "mysql" ∨ e.config.type = "mariadb" →
      getTableSchema m id t s =
        .ok (.myColumns, [jsOfOptStr e.config.database, .str t])) := by
  have hget : getConnection m id = .ok e := by simp [getConnection, he, hs]
  refine ⟨?_, ?_, ?_⟩
  · intro h
    rcases h with h | h <;>
      simp [getTableSchema, hget, dialectCase, h, jsOrS, jsStr]
  · intro h
    rcases h with h | h <;>
      simp [getTableSchema, hget, dialectCase, h, jsOrS, jsStr]
  · intro s h
    rcases h with h | h <;>
      simp [getTableSchema, hget, dialectCase, h]

/-- Witness for C9 on a registry holding one entry of each dialect;
for mysql the same result is obtained with and without a schema
argument. -/
theorem getTableSchema_schema_scoping_witness :
    getTableSchema regSchemaW "p" "t" none =
      .ok (.pgColumns, [.str "public", .str "t"]) ∧
    getTableSchema regSchemaW "s" "t" none =
      .ok (.msColumns, [.str "dbo", .str "t"]) ∧
    getTableSchema regSchemaW "m" "t" none =
      .ok (.myColumns, [.str "appdb", .str "t"]) ∧
    getTableSchema regSchemaW "m" "t" (some "other") =
      .ok (.myColumns, [.str "appdb", .str "t"]) := by
  have hp := (getTableSchema_schema_scoping regSchemaW "p" "t" pgEntryW
    (by decide) (by decide)).1 (Or.inl (by decide))
  have hs := (getTableSchema_schema_scoping regSchemaW "s" "t" msEntryW
    (by decide) (by decide)).2.1 (Or.inl (by decide))
  have hm1 := (getTableSchema_schema_scoping regSchemaW "m" "t" myEntryW
    (by decide) (by decide)).2.2 none (Or.inl (by decide))
  have hm2 := (getTableSchema_schema_scoping regSchemaW "m" "t" myEntryW
    (by decide) (by decide)).2.2 (some "other") (Or.inl (by decide))
  exact ⟨hp, hs, by rw [hm1]; rfl, by rw [hm2]; rfl⟩

/-- C10: invariant kept by initialization and reload — every registry
entry with status connected has a type string in the recognized set
(the factory throws for any other type and the failed entry is stored
with status error), and consequently the executor's unsupported
default branch is not selected for any entry returned by
`getConnection` on a reloaded registry. -/
theorem connected_entries_have_recognized_dialect
    (env : String → Option String)
    (jparse : String → Option (List (String × JsVal)))
    (fuel : Nat) (r : Registry) (configs : List DBConfig)
    (id : String) (e : DBEntry) :
    (regGet (initFromConfigs [] configs createConnection) id = some e →
      e.status = .connected →
      recognizedType e.config.type = true ∧
        dialectCase e.config.type ≠ DialectCase.unsupported) ∧
    (getConnection (reloadConnections env jparse createConnection fuel r) id =
        .ok e →
      recognizedType e.config.type = true ∧
        dialectCase e.config.type ≠ DialectCase.unsupported) := by
  constructor
  · exact fun h hs => initConnected_recognized configs id e h hs
  · intro h
    obtain ⟨hg, hs⟩ :=
      getConnection_ok (reloadConnections env jparse createConnection fuel r) id e h
    exact initConnected_recognized _ id e hg hs

/-- Witness for C10 on a one-descriptor postgres registry. -/
theorem connected_entries_have_recognized_dialect_witness :
    recognizedType pgEntryW.config.type = true ∧
    dialectCase pgEntryW.config.type ≠ DialectCase.unsupported :=
  (connected_entries_have_recognized_dialect envW jpW 0 [] [pgCfgW]
    "db1" pgEntryW).1 (by decide) (by decide)

/-- Scan characterization: below the first gap `g` every index is
parsed in order, and the scan never looks past the gap. -/
theorem parseFrom_char (env : String → Option String)
    (jparse : String → Option (List (String × JsVal)))
    (tfun : Nat → String) (g : Nat)
    (hgap : jsStr (env (envKey g "TYPE")) = none)
    (hpresent : ∀ i, 1 ≤ i → i < g → jsStr (env (envKey i "TYPE")) = some (tfun i)) :
    ∀ fuel index, 1 ≤ index → index ≤ g → g - index < fuel →
      parseFrom env jparse index fuel =
        (List.range' index (g - index)).map (fun i => mkConfig env jparse i (tfun i)) := by
  intro fuel
  induction fuel with
  | zero => intro index _ _ hlt; omega
  | succ fuel ih =>
    intro index h1 hle hlt
    rcases eq_or_lt_of_le hle with heq | hlt2
    · subst heq
      simp [parseFrom, hgap]
    · have htype := hpresent index h1 hlt2
      have hn : g - index = (g - (index + 1)) + 1 := by omega
      rw [parseFrom, htype, hn, List.range'_succ, List.map_cons,
        ih (index + 1) (by omega) (by omega) (by omega)]

/-- C8: the config parser reads indexed groups starting at index 1
and stops at the first index `g` whose TYPE variable is absent (or
empty — JS falsiness), so the result is exactly the ordered sequence
of descriptors for indices 1..g-1 and descriptors at indices past the
gap are never parsed; independently, a present but malformed OPTIONS
value leaves that descriptor's options empty instead of aborting the
parse. -/
theorem parseEnvConfigs_characterization (env : String → Option String)
    (jparse : String → Option (List (String × JsVal)))
    (tfun : Nat → String) (g fuel : Nat)
    (hg : 1 ≤ g) (hfuel : g ≤ fuel)
    (hgap : jsStr (env (envKey g "TYPE")) = none)
    (hpresent : ∀ i, 1 ≤ i → i < g → jsStr (env (envKey i "TYPE")) = some (tfun i)) :
    parseEnvConfigs env jparse fuel =
      (List.range' 1 (g - 1)).map (fun i => mkConfig env jparse i (tfun i)) ∧
    (∀ i t s, env (envKey i "OPTIONS") = some s → s ≠ "" → jparse s = none →
      (mkConfig env jparse i t).options = []) := by
  constructor
  · exact parseFrom_char env jparse tfun g hgap hpresent fuel 1 le_rfl hg (by omega)
  · intro i t s hs hne hp
    simp [mkConfig, jsStr, hs, hne, hp]

/-- Witness for C8: `envW` has groups at indices 1, 2 and 4 and a gap
at 3; exactly the descriptors for 1 and 2 are produced although index
4 carries a TYPE, and the malformed OPTIONS of index 1 yields empty
options. -/
theorem parseEnvConfigs_characterization_witness :
    parseEnvConfigs envW jpW 10 =
      [mkConfig envW jpW 1 "postgres", mkConfig envW jpW 2 "MySQL"] ∧
    (mkConfig envW jpW 1 "postgres").options = [] ∧
    envW (envKey 4 "TYPE") = some "mssql" := by
  have h := parseEnvConfigs_characterization envW jpW tfunW 3 10
    (by omega) (by omega) (by decide)
    (by intro i h1 h2; interval_cases i <;> decide)
  refine ⟨?_, h.2 1 "postgres" "not json" (by decide) (by decide) rfl, by decide⟩
  rw [h.1]
  rfl

/-- C3 counterexample: on an mssql entry whose statement run fails,
the per-call connection is opened and the statement issued, but no
close happens — refuting that the connection is closed
unconditionally. -/
theorem mssql_not_closed_on_failure :
    (query regW "db4" "SELECT 1" [] drvFailW).1 =
      [.msConnect msCfgW, .msIssue "SELECT 1"] ∧
    QEvent.msClose ∉ (query regW "db4" "SELECT 1" [] drvFailW).1 ∧
    (query regW "db4" "SELECT 1" [] drvFailW).2 =
      .error (.queryFailed "boom") := by
  refine ⟨rfl, by decide, rfl⟩

/-- C3 (amended): on an mssql registry entry a fresh per-call
connection is opened from the stored config and the statement text is
issued without binding the positional parameters (the call result is
independent of the parameter list); the per-call connection is closed
when the statement succeeds, but when the statement fails the error
propagates as a query failure and no close event occurs. -/
theorem mssql_close_only_on_success (m : Registry) (id stmt : String)
    (params : List JsVal) (drv : Driver) (e : DBEntry) (cfg : MssqlCfg)
    (he : regGet m id = some e) (hs : e.status = .connected)
    (ht : e.config.type = "mssql" ∨ e.config.type = "sqlserver")
    (hc : e.connection = some (.mssqlConfig cfg))
    (hcn : drv.msConnect cfg = .ok ()) :
    (∀ r, drv.msQuery cfg stmt = .ok r →
      (query m id stmt params drv).1 =
        [.msConnect cfg, .msIssue stmt, .msClose]) ∧
    (∀ err, drv.msQuery cfg stmt = .error err →
      (query m id stmt params drv).1 = [.msConnect cfg, .msIssue stmt] ∧
      QEvent.msClose ∉ (query m id stmt params drv).1 ∧
      (query m id stmt params drv).2 = .error (.queryFailed err)) ∧
    (∀ params2, query m id stmt params drv = query m id stmt params2 drv) := by
  have hget : getConnection m id = .ok e := by simp [getConnection, he, hs]
  have hdc : dialectCase e.config.type = .ms := by
    rcases ht with h | h <;> simp [dialectCase, h]
  have hq : ∀ ps r, drv.msQuery cfg stmt = .ok r →
      query m id stmt ps drv =
        ([.msConnect cfg, .msIssue stmt, .msClose],
         .ok { rows := r.recordset, rowCount := r.rowsAffected.head?.getD 0 }) := by
    intro ps r hr
    simp [query, hget, queryOnEntry, hdc, hc, hcn, hr]
  have hqe : ∀ ps err, drv.msQuery cfg stmt = .error err →
      query m id stmt ps drv =
        ([.msConnect cfg, .msIssue stmt], .error (.queryFailed err)) := by
    intro ps err hr
    simp [query, hget, queryOnEntry, hdc, hc, hcn, hr]
  refine ⟨?_, ?_, ?_⟩
  · intro r hr
    rw [hq params r hr]
  · intro err hr
    rw [hqe params err hr]
    exact ⟨rfl, by simp, rfl⟩
  · intro params2
    cases hr : drv.msQuery cfg stmt with
    | ok r => rw [hq params r hr, hq params2 r hr]
    | error err => rw [hqe params err hr, hqe params2 err hr]

/-- Witness for C3 (amended) at the concrete mssql registry and a
failing driver. -/
theorem mssql_close_only_on_success_witness :
    (query regW "db4" "SELECT 1" [JsVal.num 5] drvFailW).1 =
      [.msConnect msCfgW, .msIssue "SELECT 1"] ∧
    QEvent.msClose ∉ (query regW "db4" "SELECT 1" [JsVal.num 5] drvFailW).1 ∧
    (query regW "db4" "SELECT 1" [JsVal.num 5] drvFailW).2 =
      .error (.queryFailed "boom") :=
  (mssql_close_only_on_success regW "db4" "SELECT 1" [JsVal.num 5] drvFailW
    msEntryW msCfgW rfl rfl (Or.inl rfl) rfl rfl).2.1 "boom" rfl

/-- C4 counterexample: a descriptor whose options set
`trustServerCertificate` to false produces an mssql config whose
effective `trustServerCertificate` is false — the options spread is
written after the forced default and overrides it, refuting that the
flag is always forced to true. -/
theorem mssql_tsc_overridden :
    createConnection tscFalseCfg = .ok (.mssqlConfig (mssqlHandleCfg tscFalseCfg)) ∧
    objGet (mssqlHandleCfg tscFalseCfg).options "trustServerCertificate" =
      some (.bool false) ∧
    objGet (mssqlHandleCfg tscFalseCfg).options "trustServerCertificate" ≠
      some (.bool true) := by
  refine ⟨rfl, by decide, by decide⟩

/-- C4 (amended): for every mssql/sqlserver descriptor the factory
returns a lightweight config object (no connection is established —
the handle is the config value itself); in its options object,
`encrypt` and `trustServerCertificate` both default to true when the
descriptor options do not set them, and both take the descriptor
option's value when it is present, because the options are spread
after the defaults (so an explicit `encrypt: false` yields false, and
`trustServerCertificate` is forced true only when unset). -/
theorem mssql_factory_config_only (c : DBConfig)
    (ht : c.type = "mssql" ∨ c.type = "sqlserver") :
    createConnection c = .ok (.mssqlConfig (mssqlHandleCfg c)) ∧
    (mssqlHandleCfg c).server = c.host ∧
    (mssqlHandleCfg c).database = c.database ∧
    objGet (mssqlHandleCfg c).options "encrypt" =
      some ((objGet c.options "encrypt").getD (.bool true)) ∧
    objGet (mssqlHandleCfg c).options "trustServerCertificate" =
      some ((objGet c.options "trustServerCertificate").getD (.bool true)) := by
  refine ⟨?_, rfl, rfl, objGet_mssqlOptions_encrypt _, objGet_mssqlOptions_tsc _⟩
  rcases ht with h | h <;> simp [createConnection, h]

/-- Witness for C4 (amended) at the option-free mssql descriptor:
both flags evaluate to true. -/
theorem mssql_factory_config_only_witness :
    createConnection msConfigW = .ok (.mssqlConfig (mssqlHandleCfg msConfigW)) ∧
    objGet (mssqlHandleCfg msConfigW).options "encrypt" = some (.bool true) ∧
    objGet (mssqlHandleCfg msConfigW).options "trustServerCertificate" =
      some (.bool true) := by
  have h := mssql_factory_config_only msConfigW (Or.inl rfl)
  exact ⟨h.1, by rw [h.2.2.2.1]; rfl, by rw [h.2.2.2.2]; rfl⟩

/-- C1: at a payload holding one schema-matching key (`a`) and one
unknown key (`bogus`), the update route builds a SET clause over the
filtered keys only, but binds the unfiltered payload values: the
parameter list is all payload values plus the primary-key value, the
WHERE placeholder index skips over the dropped key, and the value
bound to the single SET placeholder is the unknown key's value — the
parameter list is not the schema-matching values plus the primary-key
value that the claim requires. -/
theorem updateRow_binds_unfiltered_values :
    updateRowRoute "postgres" "t" "id" (.num 7)
        [("bogus", .num 1), ("a", .num 2)]
        [⟨"id", "integer", "NO", none⟩, ⟨"a", "integer", "YES", none⟩] =
      ("UPDATE t SET a = $1 WHERE id = $3",
       [JsVal.num 1, JsVal.num 2, JsVal.num 7]) ∧
    (updateRowRoute "postgres" "t" "id" (.num 7)
        [("bogus", .num 1), ("a", .num 2)]
        [⟨"id", "integer", "NO", none⟩, ⟨"a", "integer", "YES", none⟩]).2 ≠
      [JsVal.num 2, JsVal.num 7] := by
  refine ⟨rfl, by decide⟩

/-- C2: at limit 2 and offset 1 the mssql branch of the data route
interpolates both values into a statement that combines TOP with a
bare OFFSET clause — the statement text contains TOP and OFFSET but
no FETCH and no ORDER BY, so it is not the OFFSET-FETCH pagination
form — while the parameter list [2, 1] is still passed along to the
executor, whose mssql path never binds parameters. -/
theorem mssql_pagination_statement :
    dataRouteQuery "mssql" "t" none 2 1 =
      ("SELECT TOP 2 * FROM t OFFSET 1 ROWS", [JsVal.num 2, JsVal.num 1]) ∧
    containsSeg "TOP".toList (dataRouteQuery "mssql" "t" none 2 1).1.toList = true ∧
    containsSeg "OFFSET".toList (dataRouteQuery "mssql" "t" none 2 1).1.toList = true ∧
    containsSeg "FETCH".toList (dataRouteQuery "mssql" "t" none 2 1).1.toList = false ∧
    containsSeg "ORDER BY".toList (dataRouteQuery "mssql" "t" none 2 1).1.toList = false ∧
    (dataRouteQuery "postgres" "t" none 2 1).1 =
      "SELECT * FROM t LIMIT $1 OFFSET $2" ∧
    (dataRouteQuery "mysql" "t" none 2 1).1 =
      "SELECT * FROM t LIMIT ? OFFSET ?" := by
  refine ⟨rfl, by decide, by decide, by decide, by decide, rfl, rfl⟩

end DBDash
